import Mathlib

set_option maxRecDepth 8000

/-!
Verification of the mozzy intercepting-proxy core against its specification.

The definitions below are a shallow embedding of the Go sources:
  - internal/proxy/proxy.go (the revision shipped in this snapshot; it defines
    Request, Server, handleRequest, logError, removeHopHeaders, handleHTTPS),
  - internal/proxy/ca.go (GenerateServerCert),
  - internal/proxy/har.go (ExportHAR, getStatusText).

Modelling conventions:
  - Go `http.Header` (map[string][]string) is an association list in canonical
    key form with unique keys; map iteration is modelled by list order.
  - Mutable header maps live in a `Store` (a list of header maps indexed by
    position).  A Go value of type `http.Header` held by a request or a record
    is embedded as an index into that store, so storing the map itself
    (`Headers: r.Header`) is storing the index, while a copy would be a
    snapshot of the store contents.  The handlers never write to the store:
    every header mutation in the source targets the fresh `proxyReq.Header`
    map created by `http.NewRequest` or the fresh `w.Header()` map, which the
    embedding builds as pure values.
  - Wall-clock instants and durations are nanosecond counts (`Nat`), matching
    Go `time.Time`/`time.Duration` on the nonnegative range used here.
  - Sizes are `Int`, matching Go `int64` (Content-Length may be `-1`).
  - Network and crypto nondeterminism (transport outcomes, RSA key generation,
    serial-number randomness) is passed in explicitly as oracle parameters.
-/

namespace Mozzy

/-- Go `http.Header`: an association list from canonical header name to the
list of values for that name. -/
abbrev HeaderMap := List (String × List String)

/-- A store of mutable header maps; a Go header-map reference is an index into
this store. -/
abbrev Store := List HeaderMap

/-- Dereference a header-map location, defaulting to the empty map. -/
def headersAt (store : Store) (loc : Nat) : HeaderMap :=
  (List.get? store loc).getD []

/-- Go map read `h[k]` on a header map. -/
def headerGet : HeaderMap → String → Option (List String)
  | [], _ => none
  | kv :: rest, k => if kv.1 == k then some kv.2 else headerGet rest k

/-- Go `http.Header.Add`: append a value to the canonical key's slice. -/
def headerAdd : HeaderMap → String → String → HeaderMap
  | [], k, v => [(k, [v])]
  | kv :: rest, k, v =>
    if kv.1 == k then (kv.1, kv.2 ++ [v]) :: rest else kv :: headerAdd rest k v

/-- Go `http.Header.Del`: remove every entry for the key. -/
def headerDel : HeaderMap → String → HeaderMap
  | [], _ => []
  | kv :: rest, k => if kv.1 == k then headerDel rest k else kv :: headerDel rest k

/-- Go `http.Header.Set`: replace the key's entry with the single value. -/
def headerSet (h : HeaderMap) (k v : String) : HeaderMap :=
  headerDel h k ++ [(k, [v])]

/-- The header-copy loop of handleRequest / handleHTTPS
(`for key, values := range r.Header { for _, value := range values {
proxyReq.Header.Add(key, value) } }`). -/
def copyHeaders (h : HeaderMap) : HeaderMap :=
  h.foldl (fun acc kv => kv.2.foldl (fun acc2 v => headerAdd acc2 kv.1 v) acc) []

/-- proxy.go `removeHopHeaders`: the hop-by-hop header names deleted from a
forwarded request or response. -/
def hopHeaders : List String :=
  ["Connection", "Proxy-Connection", "Keep-Alive", "Proxy-Authenticate",
   "Proxy-Authorization", "Te", "Trailer", "Transfer-Encoding", "Upgrade"]

/-- proxy.go `removeHopHeaders` (mutation rendered as a pure function). -/
def removeHopHeaders (h : HeaderMap) : HeaderMap :=
  hopHeaders.foldl (fun acc name => headerDel acc name) h

/-- Modelled from the spec: the application of `Server.InjectHeaders` to an
outgoing request.  The snapshot contains the callers that populate
`Server.InjectHeaders` (cmd/proxy.go) and its unit test, but not the handler
revision that applies it; the specification says the mapping is "applied to
every outgoing forwarded request, overwriting conflicting values from the
client" and is applied last, after hop-by-hop stripping. -/
def applyInjected (inj : List (String × String)) (h : HeaderMap) : HeaderMap :=
  inj.foldl (fun acc kv => headerSet acc kv.1 kv.2) h

/-- The outbound header map a handler builds for the upstream request:
copy the client's headers into the fresh `proxyReq.Header`, strip hop-by-hop
headers, then apply the configured injected headers (the last step modelled
from the spec, see `applyInjected`). -/
def buildOutbound (inj : List (String × String)) (clientHeaders : HeaderMap) : HeaderMap :=
  applyInjected inj (removeHopHeaders (copyHeaders clientHeaders))

/-- proxy.go `Request`: one captured transaction.  `headersLoc` embeds the
`Headers http.Header` field: the Go code stores the map reference, which the
embedding renders as the store index (`none` for a nil map, as left by
`logError`). -/
structure Request where
  id : Nat
  tsNs : Nat
  method : String
  url : String
  host : String
  path : String
  statusCode : Int
  durationNs : Nat
  reqSize : Int
  respSize : Int
  headersLoc : Option Nat
  error : String
deriving DecidableEq

/-- ca.go: the minted leaf certificate, keeping the fields the claims are
about (subject CN, DNS SANs, serial number). -/
structure LeafCert where
  cn : String
  dnsNames : List String
  serial : Nat
deriving DecidableEq

/-- proxy.go `Server` mutable state guarded by `s.mu`: the id counter, the
capture log, and the leaf-certificate cache.  `mintsFor` is a ghost field
recording, for each `GenerateServerCert` invocation, the hostKey whose
provisioning triggered it. -/
structure ProxyState where
  reqID : Nat
  requests : List Request
  certCache : List (String × LeafCert)
  mintsFor : List String
deriving DecidableEq

/-- The state of a freshly constructed `Server` (`NewServer`). -/
def initState : ProxyState :=
  { reqID := 0, requests := [], certCache := [], mintsFor := [] }

/-- Go map lookup `s.certCache[host]`. -/
def lookupCert : List (String × LeafCert) → String → Option LeafCert
  | [], _ => none
  | kv :: rest, h => if kv.1 == h then some kv.2 else lookupCert rest h

/-- ca.go `GenerateServerCert` (lines 168-203): build a leaf with
`CommonName = host` and `DNSNames = [host]`, signed by the root.  The RSA key
generation and the random 128-bit serial are an oracle: `none` models a
cryptographic failure (the error return), `some s` the drawn serial. -/
def GenerateServerCert (host : String) (rand : Option Nat) : Option LeafCert :=
  rand.map (fun s => { cn := host, dnsNames := [host], serial := s })

/-- Find the index of the last occurrence of a character. -/
def lastIndexOfChar (c : Char) (cs : List Char) : Option Nat :=
  match cs.reverse.findIdx? (fun x => x == c) with
  | none => none
  | some j => some (cs.length - 1 - j)

/-- Go `net.SplitHostPort`: split `host:port` (or `[host]:port`) at the last
colon; `none` models every error return (missing port, too many colons,
bracket errors). -/
def splitHostPort (s : String) : Option (String × String) :=
  let cs := s.toList
  match lastIndexOfChar ':' cs with
  | none => none
  | some i =>
    let hostCs := cs.take i
    let portCs := cs.drop (i + 1)
    if cs.head? == some '[' then
      match cs.findIdx? (fun x => x == ']') with
      | none => none
      | some e =>
        if e + 1 == cs.length then none
        else if e + 1 == i then
          if (cs.drop 1).contains '[' then none
          else if (cs.drop (e + 1)).contains ']' then none
          else some (String.mk ((cs.take e).drop 1), String.mk portCs)
        else none
    else
      if hostCs.contains ':' then none
      else if cs.contains '[' then none
      else if cs.contains ']' then none
      else some (String.mk hostCs, String.mk portCs)

/-- handleHTTPS lines 577-581: extract the hostname without the port for
certificate generation, keeping the input unchanged when `SplitHostPort`
errors. -/
def stripPort (host : String) : String :=
  match splitHostPort host with
  | some hp => hp.1
  | none => host

/-- har.go `getStatusText` (lines 166-198). -/
def getStatusText (code : Int) : String :=
  if code == 200 then "OK"
  else if code == 201 then "Created"
  else if code == 204 then "No Content"
  else if code == 301 then "Moved Permanently"
  else if code == 302 then "Found"
  else if code == 304 then "Not Modified"
  else if code == 400 then "Bad Request"
  else if code == 401 then "Unauthorized"
  else if code == 403 then "Forbidden"
  else if code == 404 then "Not Found"
  else if code == 500 then "Internal Server Error"
  else if code == 502 then "Bad Gateway"
  else if code == 503 then "Service Unavailable"
  else "Unknown"

/-- The thirteen status codes with a dedicated case in `getStatusText`. -/
def knownStatusCodes : List Int :=
  [200, 201, 204, 301, 302, 304, 400, 401, 403, 404, 500, 502, 503]

/-- C10: the HAR status-text mapping is total but covers only the thirteen
codes of `knownStatusCodes`; every other integer — including standard codes
such as 202, 206, 307, 418, 429 and 504 — maps to the literal "Unknown". -/
theorem status_text_unknown_outside_known (code : Int)
    (h : code ∉ knownStatusCodes) : getStatusText code = "Unknown" := by
  simp only [knownStatusCodes, List.mem_cons, List.not_mem_nil, or_false] at h
  push_neg at h
  obtain ⟨h1, h2, h3, h4, h5, h6, h7, h8, h9, h10, h11, h12, h13⟩ := h
  simp [getStatusText, h1, h2, h3, h4, h5, h6, h7, h8, h9, h10, h11, h12, h13]

theorem status_text_unknown_outside_known_witness :
    (418 : Int) ∉ knownStatusCodes ∧ getStatusText 418 = "Unknown" :=
  ⟨by decide, status_text_unknown_outside_known 418 (by decide)⟩

/-! ## The forward engine (plain HTTP) -/

/-- The fields of the incoming `*http.Request` that `handleRequest` reads.
`hdrLoc` is the location of the client's mutable header map in the store. -/
structure ForwardRequest where
  method : String
  urlString : String
  scheme : String
  host : String
  path : String
  rawQuery : String
  hdrLoc : Nat
  contentLength : Int
deriving DecidableEq

/-- handleRequest lines 392-399: resolve the absolute target URL, synthesizing
`http://<host><path>?<query>` when the client presented only a path. -/
def targetURLOf (r : ForwardRequest) : String :=
  if r.scheme == "" then
    "http://" ++ r.host ++ r.path ++ (if r.rawQuery == "" then "" else "?" ++ r.rawQuery)
  else r.urlString

/-- The outcome of the outbound dispatch `client.Do(proxyReq)`:
a transport error carrying the error message and the wall clock when the
error surfaces, or a response carrying the status, the number of response
body bytes the proxy streams back, and the wall clock at response receipt. -/
inductive UpstreamOutcome
  | fail (msg : String) (errTimeNs : Nat)
  | ok (status : Int) (bodyLen : Nat) (endTimeNs : Nat)
deriving DecidableEq

/-- Environment of one `handleRequest` invocation: the wall clock at dispatch
start (line 384), the result of `http.NewRequest` (lines 402-407; `some`
carries the error message and the wall clock at which `logError` would stamp
it), the dispatch outcome, and the upstream response headers. -/
structure ForwardEnv where
  startNs : Nat
  newReqErr : Option (String × Nat)
  outcome : UpstreamOutcome
  respHeaders : HeaderMap

/-- What the client receives back from the forward engine. -/
inductive ForwardReply
  | httpError (status : Int) (body : String)
  | success (status : Int) (respHeaders : HeaderMap) (respBytes : Nat)
deriving DecidableEq

/-- proxy.go `logError` (lines 484-501): the record it appends.  `Timestamp`
is `time.Now()` at the moment of logging; `StatusCode`, `Duration`, sizes and
`Headers` are left at their zero values (status 0, nil header map). -/
def logErrorRecord (reqID : Nat) (nowNs : Nat) (method url host path msg : String) :
    Request :=
  { id := reqID, tsNs := nowNs, method := method, url := url, host := host,
    path := path, statusCode := 0, durationNs := 0, reqSize := 0, respSize := 0,
    headersLoc := none, error := msg }

/-- proxy.go `handleRequest` (lines 372-482), the non-CONNECT path.  Returns
the new server state, the client-facing reply, and the outbound header map
when one was built (`none` when `http.NewRequest` failed first).

Line mapping: id assignment 379-382; target URL 392-399; `http.NewRequest`
failure → `logError` + 502 "Proxy error" 402-407; header copy + hop-by-hop
strip (+ injected headers per the spec) 409-417; `client.Do` failure →
`logError` + 502 "Failed to reach target" 424-428; response header copy and
strip 434-440; `io.Copy` byte count 446; the appended record 449-465. -/
def handleRequest (inj : List (String × String)) (store : Store) (env : ForwardEnv)
    (r : ForwardRequest) (st : ProxyState) :
    ProxyState × ForwardReply × Option HeaderMap :=
  let st1 := { st with reqID := st.reqID + 1 }
  let reqID := st1.reqID
  let targetURL := targetURLOf r
  match env.newReqErr with
  | some me =>
    ({ st1 with requests :=
        st1.requests ++ [logErrorRecord reqID me.2 r.method r.urlString r.host r.path me.1] },
     .httpError 502 "Proxy error", none)
  | none =>
    let outbound := buildOutbound inj (headersAt store r.hdrLoc)
    match env.outcome with
    | .fail msg tNs =>
      ({ st1 with requests :=
          st1.requests ++ [logErrorRecord reqID tNs r.method r.urlString r.host r.path msg] },
       .httpError 502 "Failed to reach target", some outbound)
    | .ok status bodyLen endNs =>
      let durationNs := endNs - env.startNs
      let respOut := removeHopHeaders (copyHeaders env.respHeaders)
      let rec1 : Request :=
        { id := reqID, tsNs := env.startNs, method := r.method, url := targetURL,
          host := r.host, path := r.path, statusCode := status,
          durationNs := durationNs, reqSize := r.contentLength,
          respSize := (bodyLen : Int), headersLoc := some r.hdrLoc, error := "" }
      ({ st1 with requests := st1.requests ++ [rec1] },
       .success status respOut bodyLen, some outbound)

/-! ## The MITM engine (CONNECT) -/

/-- handleHTTPS lines 574-605: look up the leaf for the exact CONNECT
authority in `s.certCache` under the server mutex; on a miss, mint a leaf for
the port-stripped hostname via `GenerateServerCert` and cache it under the
full authority.  The whole lookup-mint-store sequence holds `s.mu`, so
concurrent CONNECTs are serialized and the sequential model is faithful.
`oracle` supplies the crypto randomness of the n-th mint call. -/
inductive ProvisionResult
  | served (cert : LeafCert)
  | mintFailed
deriving DecidableEq

def provisionCert (oracle : Nat → Option Nat) (st : ProxyState) (host : String) :
    ProxyState × ProvisionResult :=
  match lookupCert st.certCache host with
  | some cert => (st, .served cert)
  | none =>
    match GenerateServerCert (stripPort host) (oracle st.mintsFor.length) with
    | none => ({ st with mintsFor := st.mintsFor ++ [host] }, .mintFailed)
    | some leaf =>
      ({ st with certCache := st.certCache ++ [(host, leaf)],
                 mintsFor := st.mintsFor ++ [host] }, .served leaf)

/-- The inner HTTP/1.1 request read from inside the TLS tunnel
(`http.ReadRequest`): method, URL path and query, the Host header, the header
map location and the Content-Length. -/
structure InnerRequest where
  method : String
  path : String
  rawQuery : String
  hostHeader : String
  hdrLoc : Nat
  contentLength : Int
deriving DecidableEq

/-- handleHTTPS lines 672-674 and `url.URL.String()`: the inner request URL
rewritten to scheme `https` and host equal to the CONNECT authority. -/
def mitmURL (connectHost : String) (req : InnerRequest) : String :=
  "https://" ++ connectHost ++ req.path ++
    (if req.rawQuery == "" then "" else "?" ++ req.rawQuery)

/-- Environment of one `handleHTTPS` invocation: the CONNECT authority
(`r.Host`), the crypto oracle for minting, the outcomes of hijacking, the
"200 Connection Established" write, the TLS handshake, the inner-request
read, `http.NewRequest`, the upstream dispatch, and the response write. -/
structure MitmEnv where
  connectHost : String
  mintOracle : Nat → Option Nat
  hijackSupported : Bool
  hijackOk : Bool
  ackWriteOk : Bool
  handshakeOk : Bool
  innerReq : Option InnerRequest
  newReqErr : Option (String × Nat)
  startNs : Nat
  upstream : UpstreamOutcome
  respWriteOk : Bool

/-- What the CONNECT client observes. -/
inductive MitmReply
  | httpError (status : Int) (body : String)
  | silentClose
  | completed (status : Int)
deriving DecidableEq

/-- proxy.go `handleHTTPS` (lines 560-760).  Returns the new server state,
the client-facing outcome, and the outbound header map when one was built.

Line mapping: missing-host check → 400 562-567; certificate provisioning
574-605 (see `provisionCert`); mint failure → 500 589-594; hijack-unsupported
→ 500 608-613; `Hijack()` error → bare return 615-619; "200 Connection
Established" write 627-633; TLS handshake 651-656; inner request read
663-670; URL rewrite 672-674; id assignment 676-679; `http.NewRequest`
failure → `logError` 694-698; header copy + strip (+ injected headers per
the spec) 700-706; `client.Do` failure → `logError` 709-713; `resp.Write`
failure → bare return 719-725; the appended record 728-743 (note `RespSize`
is never assigned there, so it stays at its zero value). -/
def handleHTTPS (inj : List (String × String)) (store : Store) (env : MitmEnv)
    (st : ProxyState) : ProxyState × MitmReply × Option HeaderMap :=
  if env.connectHost == "" then (st, .httpError 400 "Missing host", none)
  else
    let st1 := (provisionCert env.mintOracle st env.connectHost).1
    match (provisionCert env.mintOracle st env.connectHost).2 with
    | .mintFailed =>
      (st1, .httpError 500 "Certificate generation failed", none)
    | .served _cert =>
      if !env.hijackSupported then
        (st1, .httpError 500 "Hijacking not supported", none)
      else if !env.hijackOk then (st1, .silentClose, none)
      else if !env.ackWriteOk then (st1, .silentClose, none)
      else if !env.handshakeOk then (st1, .silentClose, none)
      else
        match env.innerReq with
        | none => (st1, .silentClose, none)
        | some req =>
          let st2 := { st1 with reqID := st1.reqID + 1 }
          let reqID := st2.reqID
          let url := mitmURL env.connectHost req
          match env.newReqErr with
          | some me =>
            ({ st2 with requests :=
                st2.requests ++
                  [logErrorRecord reqID me.2 req.method url req.hostHeader req.path me.1] },
             .silentClose, none)
          | none =>
            let outbound := buildOutbound inj (headersAt store req.hdrLoc)
            match env.upstream with
            | .fail msg tNs =>
              ({ st2 with requests :=
                  st2.requests ++
                    [logErrorRecord reqID tNs req.method url req.hostHeader req.path msg] },
               .silentClose, some outbound)
            | .ok status _bodyLen endNs =>
              let durationNs := endNs - env.startNs
              if !env.respWriteOk then (st2, .silentClose, some outbound)
              else
                let rec1 : Request :=
                  { id := reqID, tsNs := env.startNs, method := req.method,
                    url := url, host := req.hostHeader, path := req.path,
                    statusCode := status, durationNs := durationNs,
                    reqSize := req.contentLength, respSize := 0,
                    headersLoc := some req.hdrLoc, error := "" }
                ({ st2 with requests := st2.requests ++ [rec1] },
                 .completed status, some outbound)

/-- Read the headers a capture-log record denotes, through the store: the
record holds the map reference (`Headers: r.Header`), so the read goes
through the current store contents. -/
def readRecordHeaders (store : Store) (rec : Request) : Option HeaderMap :=
  rec.headersLoc.bind (fun l => List.get? store l)

/-! ## The HAR exporter -/

/-- Go `time.Duration.Milliseconds()`: integer division of the nanosecond
count by 10^6, truncating any fractional millisecond. -/
def millisOf (durNs : Nat) : Nat := durNs / 1000000

/-- har.go `HAREntry` restricted to the fields derived from a record.
`startedTsNs` stands for `StartedDateTime` (the RFC 3339 rendering of the
timestamp is not modelled; the raw instant is kept instead).  `time` and
`waitMs` are rationals standing for the Go `float64` values, which are exact
for these magnitudes. -/
structure HAREntry where
  startedTsNs : Nat
  time : ℚ
  reqMethod : String
  reqURL : String
  reqHeaders : List (String × String)
  reqBodySize : Int
  respStatus : Int
  respStatusText : String
  respContentSize : Int
  respBodySize : Int
  waitMs : ℚ
deriving DecidableEq

/-- har.go lines 94-103: flatten a header map into `{name, value}` pairs,
one per value. -/
def harHeadersOf (h : HeaderMap) : List (String × String) :=
  h.foldl (fun acc kv => acc ++ kv.2.map (fun v => (kv.1, v))) []

/-- har.go lines 105-137: the entry built for one record.  `Time` is
`float64(req.Duration.Milliseconds())`; `Response.Content.Size` and
`Response.BodySize` are both `req.RespSize`; the record's nil header map
(from `logError`) flattens to no headers. -/
def harEntryOf (store : Store) (rec : Request) : HAREntry :=
  { startedTsNs := rec.tsNs,
    time := ((millisOf rec.durationNs : Nat) : ℚ),
    reqMethod := rec.method,
    reqURL := rec.url,
    reqHeaders :=
      harHeadersOf (match rec.headersLoc with
        | some l => headersAt store l
        | none => []),
    reqBodySize := rec.reqSize,
    respStatus := rec.statusCode,
    respStatusText := getStatusText rec.statusCode,
    respContentSize := rec.respSize,
    respBodySize := rec.respSize,
    waitMs := ((millisOf rec.durationNs : Nat) : ℚ) }

/-- har.go `ExportHAR` (lines 82-164), the entry-building loop over the
snapshot of `s.requests`: records whose `Error` field is non-empty are
skipped (`continue`), every other record contributes exactly one entry in
log order. -/
def exportHAREntries (store : Store) (recs : List Request) : List HAREntry :=
  recs.foldl (fun acc r => if r.error == "" then acc ++ [harEntryOf store r] else acc) []

/-! ## Helper lemmas -/

/-- Certificate provisioning never touches the capture log. -/
lemma provisionCert_requests (oracle : Nat → Option Nat) (st : ProxyState) (host : String) :
    ((provisionCert oracle st host).1).requests = st.requests := by
  unfold provisionCert
  cases lookupCert st.certCache host with
  | some cert => rfl
  | none =>
    cases GenerateServerCert (stripPort host) (oracle st.mintsFor.length) <;> rfl

/-- Certificate provisioning never touches the id counter. -/
lemma provisionCert_reqID (oracle : Nat → Option Nat) (st : ProxyState) (host : String) :
    ((provisionCert oracle st host).1).reqID = st.reqID := by
  unfold provisionCert
  cases lookupCert st.certCache host with
  | some cert => rfl
  | none =>
    cases GenerateServerCert (stripPort host) (oracle st.mintsFor.length) <;> rfl

/-- Every `handleRequest` invocation appends exactly one record at the end
of the capture log. -/
lemma handleRequest_requests_cases (inj : List (String × String)) (store : Store)
    (env : ForwardEnv) (r : ForwardRequest) (st : ProxyState) :
    ∃ rec, ((handleRequest inj store env r st).1).requests = st.requests ++ [rec] := by
  cases hne : env.newReqErr with
  | some me =>
    exact ⟨logErrorRecord (st.reqID + 1) me.2 r.method r.urlString r.host r.path me.1,
      by simp [handleRequest, hne]⟩
  | none =>
    cases ho : env.outcome with
    | fail msg tNs =>
      exact ⟨logErrorRecord (st.reqID + 1) tNs r.method r.urlString r.host r.path msg,
        by simp [handleRequest, hne, ho]⟩
    | ok status bodyLen endNs =>
      exact ⟨{ id := st.reqID + 1, tsNs := env.startNs, method := r.method,
               url := targetURLOf r, host := r.host, path := r.path,
               statusCode := status, durationNs := endNs - env.startNs,
               reqSize := r.contentLength, respSize := (bodyLen : Int),
               headersLoc := some r.hdrLoc, error := "" },
        by simp [handleRequest, hne, ho]⟩

/-- Every `handleHTTPS` branch leaves the capture log unchanged or appends
exactly one record at the end. -/
lemma handleHTTPS_requests_cases (inj : List (String × String)) (store : Store)
    (env : MitmEnv) (st : ProxyState) :
    ((handleHTTPS inj store env st).1).requests = st.requests ∨
    ∃ rec, ((handleHTTPS inj store env st).1).requests = st.requests ++ [rec] := by
  by_cases hhost : env.connectHost == ""
  · left; simp [handleHTTPS, hhost]
  · have hreq := provisionCert_requests env.mintOracle st env.connectHost
    cases hpres : (provisionCert env.mintOracle st env.connectHost).2 with
    | mintFailed => left; simp [handleHTTPS, hhost, hpres, hreq]
    | served cert =>
      cases h1 : env.hijackSupported with
      | false => left; simp [handleHTTPS, hhost, hpres, h1, hreq]
      | true =>
        cases h2 : env.hijackOk with
        | false => left; simp [handleHTTPS, hhost, hpres, h1, h2, hreq]
        | true =>
          cases h3 : env.ackWriteOk with
          | false => left; simp [handleHTTPS, hhost, hpres, h1, h2, h3, hreq]
          | true =>
            cases h4 : env.handshakeOk with
            | false => left; simp [handleHTTPS, hhost, hpres, h1, h2, h3, h4, hreq]
            | true =>
              cases hir : env.innerReq with
              | none => left; simp [handleHTTPS, hhost, hpres, h1, h2, h3, h4, hir, hreq]
              | some req =>
                cases hne : env.newReqErr with
                | some me =>
                  right
                  refine ⟨logErrorRecord
                      ((provisionCert env.mintOracle st env.connectHost).1.reqID + 1)
                      me.2 req.method (mitmURL env.connectHost req) req.hostHeader
                      req.path me.1, ?_⟩
                  simp [handleHTTPS, hhost, hpres, h1, h2, h3, h4, hir, hne, hreq]
                | none =>
                  cases hup : env.upstream with
                  | fail msg tNs =>
                    right
                    refine ⟨logErrorRecord
                        ((provisionCert env.mintOracle st env.connectHost).1.reqID + 1)
                        tNs req.method (mitmURL env.connectHost req) req.hostHeader
                        req.path msg, ?_⟩
                    simp [handleHTTPS, hhost, hpres, h1, h2, h3, h4, hir, hne, hup, hreq]
                  | ok status bodyLen endNs =>
                    cases h5 : env.respWriteOk with
                    | false =>
                      left
                      simp [handleHTTPS, hhost, hpres, h1, h2, h3, h4, hir, hne, hup, h5, hreq]
                    | true =>
                      right
                      refine ⟨{ id := (provisionCert env.mintOracle st env.connectHost).1.reqID + 1,
                                tsNs := env.startNs, method := req.method,
                                url := mitmURL env.connectHost req,
                                host := req.hostHeader, path := req.path,
                                statusCode := status, durationNs := endNs - env.startNs,
                                reqSize := req.contentLength, respSize := 0,
                                headersLoc := some req.hdrLoc, error := "" }, ?_⟩
                      simp [handleHTTPS, hhost, hpres, h1, h2, h3, h4, hir, hne, hup, h5, hreq]

/-! ## C1: the capture-log retention bound -/

/-- A sample transaction record. -/
def sampleRecord : Request :=
  { id := 1, tsNs := 0, method := "GET", url := "http://h/x", host := "h",
    path := "/x", statusCode := 200, durationNs := 0, reqSize := 0,
    respSize := 0, headersLoc := none, error := "" }

/-- A forward-engine environment for a successful dispatch. -/
def fwdEnvOk : ForwardEnv :=
  { startNs := 0, newReqErr := none, outcome := .ok 200 5 10, respHeaders := [] }

/-- A sample plain-HTTP request. -/
def sampleFwdReq : ForwardRequest :=
  { method := "GET", urlString := "http://h/x", scheme := "http", host := "h",
    path := "/x", rawQuery := "", hdrLoc := 0, contentLength := 3 }

/-- A server state whose capture log already holds exactly 10 000 records. -/
def fullLogState : ProxyState :=
  { reqID := 10000, requests := List.replicate 10000 sampleRecord,
    certCache := [], mintsFor := [] }

/-- C1 counterexample: with the capture log already holding exactly 10 000
records, one more successfully forwarded request grows the log to 10 001
records and the oldest record is still present — no record is dropped, so
the claimed 10 000-record FIFO cap does not exist in the code. -/
theorem capture_log_cap_counterexample :
    ((handleRequest [] [] fwdEnvOk sampleFwdReq fullLogState).1.requests.length = 10001) ∧
    sampleRecord ∈ (handleRequest [] [] fwdEnvOk sampleFwdReq fullLogState).1.requests := by
  obtain ⟨rec, h⟩ := handleRequest_requests_cases [] [] fwdEnvOk sampleFwdReq fullLogState
  have hfull : fullLogState.requests = List.replicate 10000 sampleRecord := rfl
  rw [hfull] at h
  constructor
  · rw [h, List.length_append, List.length_replicate]
    norm_num
  · rw [h]
    exact List.mem_append_left _ (List.mem_replicate.2 ⟨by norm_num, rfl⟩)

/-- C1 amended: the capture log is unbounded.  Every `handleRequest`
invocation appends exactly one record (a success record or a `logError`
record) and never drops any existing record; every `handleHTTPS` invocation
appends at most one record and never drops any existing record.  No
10 000-record cap is enforced anywhere. -/
theorem capture_log_append_amended :
    (∀ inj store env r st,
      ((handleRequest inj store env r st).1.requests.length = st.requests.length + 1) ∧
      (∀ x ∈ st.requests, x ∈ (handleRequest inj store env r st).1.requests)) ∧
    (∀ inj store env st,
      ((handleHTTPS inj store env st).1.requests.length ≤ st.requests.length + 1) ∧
      (∀ x ∈ st.requests, x ∈ (handleHTTPS inj store env st).1.requests)) := by
  constructor
  · intro inj store env r st
    rcases handleRequest_requests_cases inj store env r st with ⟨rec, h⟩
    rw [h]
    constructor
    · simp
    · intro x hx
      exact List.mem_append_left _ hx
  · intro inj store env st
    rcases handleHTTPS_requests_cases inj store env st with h | ⟨rec, h⟩
    · rw [h]
      exact ⟨Nat.le_succ _, fun x hx => hx⟩
    · rw [h]
      constructor
      · simp
      · intro x hx
        exact List.mem_append_left _ hx

/-! ## C3: CONNECT early-failure statuses and logging -/

/-- A CONNECT environment with an empty authority. -/
def mitmEnvNoHost : MitmEnv :=
  { connectHost := "", mintOracle := fun _ => none, hijackSupported := false,
    hijackOk := false, ackWriteOk := false, handshakeOk := false,
    innerReq := none, newReqErr := none, startNs := 0,
    upstream := .fail "x" 0, respWriteOk := false }

/-- C3 counterexample: a CONNECT with a missing host returns 400 Bad Request
but the capture log stays empty — no error entry is appended (the failure is
only printed), contradicting the claim that each early MITM failure both
replies with the listed status and appends an error entry. -/
theorem connect_failure_log_counterexample :
    handleHTTPS [] [] mitmEnvNoHost initState =
      (initState, .httpError 400 "Missing host", none) ∧
    (handleHTTPS [] [] mitmEnvNoHost initState).1.requests = [] := by
  exact ⟨rfl, rfl⟩

/-- C3 amended: the client-facing statuses are as listed — missing host gives
400 Bad Request, leaf-mint failure gives 500 Internal Server Error,
hijack-unsupported gives 500 Internal Server Error — but in none of these
three cases is an error entry appended to the capture log; the log is left
unchanged. -/
theorem connect_failure_statuses_amended (inj : List (String × String)) (store : Store)
    (env : MitmEnv) (st : ProxyState) :
    (env.connectHost = "" →
      handleHTTPS inj store env st = (st, .httpError 400 "Missing host", none)) ∧
    (env.connectHost ≠ "" →
      (provisionCert env.mintOracle st env.connectHost).2 = .mintFailed →
      handleHTTPS inj store env st =
        ((provisionCert env.mintOracle st env.connectHost).1,
         .httpError 500 "Certificate generation failed", none) ∧
      (handleHTTPS inj store env st).1.requests = st.requests) ∧
    (∀ c, env.connectHost ≠ "" →
      (provisionCert env.mintOracle st env.connectHost).2 = .served c →
      env.hijackSupported = false →
      handleHTTPS inj store env st =
        ((provisionCert env.mintOracle st env.connectHost).1,
         .httpError 500 "Hijacking not supported", none) ∧
      (handleHTTPS inj store env st).1.requests = st.requests) := by
  refine ⟨?_, ?_, ?_⟩
  · intro h
    simp [handleHTTPS, h]
  · intro hh hm
    have hh2 : (env.connectHost == "") = false := by
      simpa using hh
    constructor
    · simp [handleHTTPS, hh2, hm]
    · simp [handleHTTPS, hh2, hm, provisionCert_requests]
  · intro c hh hs hhs
    have hh2 : (env.connectHost == "") = false := by
      simpa using hh
    constructor
    · simp [handleHTTPS, hh2, hs, hhs]
    · simp [handleHTTPS, hh2, hs, hhs, provisionCert_requests]

/-- A CONNECT environment whose server surface does not support hijacking. -/
def mitmEnvNoHijack : MitmEnv :=
  { connectHost := "a:1", mintOracle := fun _ => some 0, hijackSupported := false,
    hijackOk := false, ackWriteOk := false, handshakeOk := false,
    innerReq := none, newReqErr := none, startNs := 0,
    upstream := .fail "x" 0, respWriteOk := false }

theorem connect_failure_statuses_amended_witness :
    handleHTTPS [] [] mitmEnvNoHijack initState =
      ((provisionCert mitmEnvNoHijack.mintOracle initState mitmEnvNoHijack.connectHost).1,
       .httpError 500 "Hijacking not supported", none) ∧
    (handleHTTPS [] [] mitmEnvNoHijack initState).1.requests = initState.requests :=
  (connect_failure_statuses_amended [] [] mitmEnvNoHijack initState).2.2
    { cn := "a", dnsNames := ["a"], serial := 0 } (by decide) (by decide) rfl

/-! ## C6: forward-path transport errors -/

/-- A plain-HTTP request used in the transport-error counterexample. -/
def cex6Req : ForwardRequest :=
  { method := "GET", urlString := "http://h/x", scheme := "http", host := "h",
    path := "/x", rawQuery := "", hdrLoc := 0, contentLength := 0 }

/-- A forward environment where the dispatch starts at t = 100 ns and the
transport fails at t = 105 ns. -/
def cex6Env : ForwardEnv :=
  { startNs := 100, newReqErr := none, outcome := .fail "refused" 105,
    respHeaders := [] }

/-- C6 counterexample: on a transport error the appended record's timestamp
is the wall clock at the moment `logError` runs (`time.Now()`, here 105 ns),
not the wall clock at dispatch start (here 100 ns), refuting the `ts` clause
of the claim; the 502 reply, status 0 and error message are as claimed. -/
theorem transport_error_ts_counterexample :
    (handleRequest [] [] cex6Env cex6Req initState).1.requests =
      [logErrorRecord 1 105 "GET" "http://h/x" "h" "/x" "refused"] ∧
    (handleRequest [] [] cex6Env cex6Req initState).2.1 =
      .httpError 502 "Failed to reach target" ∧
    cex6Env.startNs = 100 ∧
    (logErrorRecord 1 105 "GET" "http://h/x" "h" "/x" "refused").tsNs = 105 ∧
    (105 : Nat) ≠ 100 := by
  exact ⟨rfl, rfl, rfl, rfl, by decide⟩

/-- C6 amended: on the plain-HTTP forward path, a failed upstream dispatch
replies 502 Bad Gateway and appends a record with status 0 and the failure
message in the error field, but the record's timestamp is the wall clock at
the moment the error is logged (`time.Now()` inside `logError`), not the
wall clock at dispatch start. -/
theorem transport_error_amended (inj : List (String × String)) (store : Store)
    (env : ForwardEnv) (r : ForwardRequest) (st : ProxyState) (msg : String) (tNs : Nat)
    (hne : env.newReqErr = none) (ho : env.outcome = .fail msg tNs) :
    (handleRequest inj store env r st).2.1 = .httpError 502 "Failed to reach target" ∧
    (handleRequest inj store env r st).1.requests =
      st.requests ++ [logErrorRecord (st.reqID + 1) tNs r.method r.urlString r.host r.path msg] ∧
    (logErrorRecord (st.reqID + 1) tNs r.method r.urlString r.host r.path msg).statusCode = 0 ∧
    (logErrorRecord (st.reqID + 1) tNs r.method r.urlString r.host r.path msg).error = msg ∧
    (logErrorRecord (st.reqID + 1) tNs r.method r.urlString r.host r.path msg).tsNs = tNs := by
  refine ⟨?_, ?_, rfl, rfl, rfl⟩
  · simp [handleRequest, hne, ho]
  · simp [handleRequest, hne, ho]

/-- A forward environment for the amended-theorem witness. -/
def wit6Env : ForwardEnv :=
  { startNs := 3, newReqErr := none, outcome := .fail "dial timeout" 7,
    respHeaders := [] }

theorem transport_error_amended_witness :
    (handleRequest [] [] wit6Env sampleFwdReq initState).2.1 =
      .httpError 502 "Failed to reach target" ∧
    (handleRequest [] [] wit6Env sampleFwdReq initState).1.requests =
      initState.requests ++
        [logErrorRecord (initState.reqID + 1) 7 sampleFwdReq.method
          sampleFwdReq.urlString sampleFwdReq.host sampleFwdReq.path "dial timeout"] ∧
    (logErrorRecord (initState.reqID + 1) 7 sampleFwdReq.method
      sampleFwdReq.urlString sampleFwdReq.host sampleFwdReq.path "dial timeout").statusCode = 0 ∧
    (logErrorRecord (initState.reqID + 1) 7 sampleFwdReq.method
      sampleFwdReq.urlString sampleFwdReq.host sampleFwdReq.path "dial timeout").error = "dial timeout" ∧
    (logErrorRecord (initState.reqID + 1) 7 sampleFwdReq.method
      sampleFwdReq.urlString sampleFwdReq.host sampleFwdReq.path "dial timeout").tsNs = 7 :=
  transport_error_amended [] [] wit6Env sampleFwdReq initState "dial timeout" 7 rfl rfl

/-! ## C7: recorded request/response sizes -/

/-- A sample inner (tunnelled) request. -/
def innerReqSample : InnerRequest :=
  { method := "GET", path := "/y", rawQuery := "", hostHeader := "a",
    hdrLoc := 0, contentLength := 3 }

/-- A CONNECT environment for a fully successful MITM exchange whose
upstream response body holds 5 bytes. -/
def mitmEnvHappy : MitmEnv :=
  { connectHost := "a:1", mintOracle := fun _ => some 0, hijackSupported := true,
    hijackOk := true, ackWriteOk := true, handshakeOk := true,
    innerReq := some innerReqSample, newReqErr := none, startNs := 0,
    upstream := .ok 200 5 10, respWriteOk := true }

/-- C7 counterexample: on the MITM path the success record's `RespSize` field
is never assigned, so it stays 0 even though the upstream response body
streamed back to the client held 5 bytes — the claim that `respSize` equals
the streamed byte count fails on the MITM path. -/
theorem mitm_respsize_counterexample :
    mitmEnvHappy.upstream = .ok 200 5 10 ∧
    ((handleHTTPS [] [[("A", ["x"])]] mitmEnvHappy initState).1.requests.map
        (fun rec => rec.respSize)) = [0] ∧
    (0 : Int) ≠ 5 := by
  exact ⟨rfl, rfl, by decide⟩

/-- C7 amended: on the plain-HTTP forward path a successful transaction is
recorded with `reqSize` equal to the request's Content-Length and `respSize`
equal to the response-body byte count streamed back; on the MITM path
`reqSize` equals the inner request's Content-Length but `respSize` is always
0, because the field is never assigned there. -/
theorem sizes_recorded_amended :
    (∀ inj store env r st (status : Int) (bodyLen endNs : Nat),
      env.newReqErr = none → env.outcome = .ok status bodyLen endNs →
      ((handleRequest inj store env r st).1.requests.map
          (fun rec => (rec.reqSize, rec.respSize))).getLast? =
        some (r.contentLength, (bodyLen : Int))) ∧
    (∀ inj store env q st (status : Int) (bodyLen endNs : Nat),
      env.connectHost ≠ "" →
      (∃ c, (provisionCert env.mintOracle st env.connectHost).2 = .served c) →
      env.hijackSupported = true → env.hijackOk = true → env.ackWriteOk = true →
      env.handshakeOk = true → env.innerReq = some q → env.newReqErr = none →
      env.upstream = .ok status bodyLen endNs → env.respWriteOk = true →
      ((handleHTTPS inj store env st).1.requests.map
          (fun rec => (rec.reqSize, rec.respSize))).getLast? =
        some (q.contentLength, (0 : Int))) := by
  constructor
  · intro inj store env r st status bodyLen endNs hne ho
    simp [handleRequest, hne, ho]
  · intro inj store env q st status bodyLen endNs hh hs h1 h2 h3 h4 hir hne hup h5
    obtain ⟨c, hc⟩ := hs
    have hh2 : (env.connectHost == "") = false := by
      simpa using hh
    simp [handleHTTPS, hh2, hc, h1, h2, h3, h4, hir, hne, hup, h5]

theorem sizes_recorded_amended_witness :
    (((handleRequest [] [] fwdEnvOk sampleFwdReq initState).1.requests.map
        (fun rec => (rec.reqSize, rec.respSize))).getLast? =
      some (sampleFwdReq.contentLength, (5 : Int))) ∧
    (((handleHTTPS [] [] mitmEnvHappy initState).1.requests.map
        (fun rec => (rec.reqSize, rec.respSize))).getLast? =
      some (innerReqSample.contentLength, (0 : Int))) :=
  ⟨sizes_recorded_amended.1 [] [] fwdEnvOk sampleFwdReq initState 200 5 10 rfl rfl,
   sizes_recorded_amended.2 [] [] mitmEnvHappy innerReqSample initState 200 5 10
     (by decide) ⟨{ cn := "a", dnsNames := ["a"], serial := 0 }, by decide⟩
     rfl rfl rfl rfl rfl rfl rfl rfl⟩

/-! ## C8: recorded headers are a reference, not a copy -/

/-- The store as it is when the request is handled. -/
def store8 : Store := [[("X-Keep", ["yes"])]]

/-- The store after the client's header map (location 0) is mutated later. -/
def mutStore8 : Store := [[("X-Keep", ["no"])]]

/-- C8 counterexample: the appended record stores the client's header-map
reference (`Headers: r.Header`), embedded as the store location.  Reading
the record's headers before the mutation yields the original values; after
mutating the client's map at that location the log's view changes — the
stored headers are not a copy. -/
theorem headers_reference_counterexample :
    ((handleRequest [] store8 fwdEnvOk sampleFwdReq initState).1.requests.map
        (readRecordHeaders store8)) = [some [("X-Keep", ["yes"])]] ∧
    ((handleRequest [] store8 fwdEnvOk sampleFwdReq initState).1.requests.map
        (readRecordHeaders mutStore8)) = [some [("X-Keep", ["no"])]] ∧
    (some [("X-Keep", ["no"])] : Option HeaderMap) ≠ some [("X-Keep", ["yes"])] := by
  exact ⟨rfl, rfl, by decide⟩

/-- C8 amended: a success record on either path stores the client's
header-map location itself (an alias, so later mutations of the client's map
are visible through the capture log, per the counterexample), while the
outbound request headers are built as a pure value from the client's map —
copied into the fresh `proxyReq.Header`, stripped of hop-by-hop headers,
injected headers applied — and the store holding the client's map is never
written by the handlers. -/
theorem headers_alias_amended :
    (∀ inj store env r st (status : Int) (bodyLen endNs : Nat),
      env.newReqErr = none → env.outcome = .ok status bodyLen endNs →
      (((handleRequest inj store env r st).1.requests.map
          (fun rec => rec.headersLoc)).getLast? = some (some r.hdrLoc)) ∧
      (handleRequest inj store env r st).2.2 =
        some (buildOutbound inj (headersAt store r.hdrLoc))) ∧
    (∀ inj store env q st (status : Int) (bodyLen endNs : Nat),
      env.connectHost ≠ "" →
      (∃ c, (provisionCert env.mintOracle st env.connectHost).2 = .served c) →
      env.hijackSupported = true → env.hijackOk = true → env.ackWriteOk = true →
      env.handshakeOk = true → env.innerReq = some q → env.newReqErr = none →
      env.upstream = .ok status bodyLen endNs → env.respWriteOk = true →
      (((handleHTTPS inj store env st).1.requests.map
          (fun rec => rec.headersLoc)).getLast? = some (some q.hdrLoc)) ∧
      (handleHTTPS inj store env st).2.2 =
        some (buildOutbound inj (headersAt store q.hdrLoc))) := by
  constructor
  · intro inj store env r st status bodyLen endNs hne ho
    constructor
    · simp [handleRequest, hne, ho]
    · simp [handleRequest, hne, ho]
  · intro inj store env q st status bodyLen endNs hh hs h1 h2 h3 h4 hir hne hup h5
    obtain ⟨c, hc⟩ := hs
    have hh2 : (env.connectHost == "") = false := by
      simpa using hh
    constructor
    · simp [handleHTTPS, hh2, hc, h1, h2, h3, h4, hir, hne, hup, h5]
    · simp [handleHTTPS, hh2, hc, h1, h2, h3, h4, hir, hne, hup, h5]

theorem headers_alias_amended_witness :
    ((((handleRequest [] store8 fwdEnvOk sampleFwdReq initState).1.requests.map
        (fun rec => rec.headersLoc)).getLast? = some (some sampleFwdReq.hdrLoc)) ∧
      (handleRequest [] store8 fwdEnvOk sampleFwdReq initState).2.2 =
        some (buildOutbound [] (headersAt store8 sampleFwdReq.hdrLoc))) ∧
    ((((handleHTTPS [] store8 mitmEnvHappy initState).1.requests.map
        (fun rec => rec.headersLoc)).getLast? = some (some innerReqSample.hdrLoc)) ∧
      (handleHTTPS [] store8 mitmEnvHappy initState).2.2 =
        some (buildOutbound [] (headersAt store8 innerReqSample.hdrLoc))) :=
  ⟨headers_alias_amended.1 [] store8 fwdEnvOk sampleFwdReq initState 200 5 10 rfl rfl,
   headers_alias_amended.2 [] store8 mitmEnvHappy innerReqSample initState 200 5 10
     (by decide) ⟨{ cn := "a", dnsNames := ["a"], serial := 0 }, by decide⟩
     rfl rfl rfl rfl rfl rfl rfl rfl⟩

/-! ## C2: injected headers on outbound requests -/

lemma headerGet_append (h1 h2 : HeaderMap) (k : String) :
    headerGet (h1 ++ h2) k =
      match headerGet h1 k with
      | some vs => some vs
      | none => headerGet h2 k := by
  induction h1 with
  | nil => simp [headerGet]
  | cons kv rest ih =>
    cases hk : kv.1 == k with
    | true => simp [headerGet, hk]
    | false => simp [headerGet, hk, ih]

lemma headerGet_headerDel_self (h : HeaderMap) (k : String) :
    headerGet (headerDel h k) k = none := by
  induction h with
  | nil => rfl
  | cons kv rest ih =>
    cases hk : kv.1 == k with
    | true => simp [headerDel, hk, ih]
    | false => simp [headerDel, hk, headerGet, ih]

lemma headerGet_headerDel_ne (h : HeaderMap) (k k2 : String)
    (hne : (k2 == k) = false) :
    headerGet (headerDel h k2) k = headerGet h k := by
  induction h with
  | nil => rfl
  | cons kv rest ih =>
    cases hk2 : kv.1 == k2 with
    | true =>
      have e : kv.1 = k2 := by simpa using hk2
      have hkk : (kv.1 == k) = false := by rw [e]; exact hne
      simp [headerDel, hk2, headerGet, hkk, ih]
    | false =>
      cases hkk : kv.1 == k with
      | true => simp [headerDel, hk2, headerGet, hkk]
      | false => simp [headerDel, hk2, headerGet, hkk, ih]

lemma headerGet_headerSet_self (h : HeaderMap) (k v : String) :
    headerGet (headerSet h k v) k = some [v] := by
  unfold headerSet
  rw [headerGet_append, headerGet_headerDel_self]
  simp [headerGet]

lemma headerGet_headerSet_ne (h : HeaderMap) (k k2 v2 : String)
    (hne : (k2 == k) = false) :
    headerGet (headerSet h k2 v2) k = headerGet h k := by
  unfold headerSet
  rw [headerGet_append, headerGet_headerDel_ne h k k2 hne]
  cases headerGet h k with
  | none => simp [headerGet, hne]
  | some vs => simp

lemma applyInjected_cons (kv : String × String) (rest : List (String × String))
    (hm : HeaderMap) :
    applyInjected (kv :: rest) hm = applyInjected rest (headerSet hm kv.1 kv.2) := rfl

lemma headerGet_applyInjected_not_mem (k : String) :
    ∀ (inj : List (String × String)) (hm : HeaderMap),
      (∀ kv ∈ inj, (kv.1 == k) = false) →
      headerGet (applyInjected inj hm) k = headerGet hm k := by
  intro inj
  induction inj with
  | nil => intro hm _; rfl
  | cons kv rest ih =>
    intro hm hall
    rw [applyInjected_cons,
      ih (headerSet hm kv.1 kv.2) (fun kv2 hkv2 => hall kv2 (List.mem_cons_of_mem _ hkv2))]
    exact headerGet_headerSet_ne hm k kv.1 kv.2 (hall kv (List.mem_cons_self _ _))

lemma headerGet_applyInjected_mem (k v : String) :
    ∀ (inj : List (String × String)) (hm : HeaderMap),
      (k, v) ∈ inj → (inj.map Prod.fst).Nodup →
      headerGet (applyInjected inj hm) k = some [v] := by
  intro inj
  induction inj with
  | nil => intro hm hmem _; cases hmem
  | cons kv rest ih =>
    intro hm hmem hnd
    rw [applyInjected_cons]
    rcases List.mem_cons.mp hmem with heq | hmem2
    · have hk1 : kv.1 = k := by rw [← heq]
      have hv : kv.2 = v := by rw [← heq]
      have hmap : kv.1 ∉ rest.map Prod.fst :=
        (List.nodup_cons.mp (by simpa using hnd)).1
      have hnotin : ∀ kv2 ∈ rest, (kv2.1 == k) = false := by
        intro kv2 hkv2
        have hin : kv2.1 ∈ rest.map Prod.fst := List.mem_map_of_mem _ hkv2
        have hne : kv2.1 ≠ k := by
          intro hcontra
          rw [hk1] at hmap
          rw [hcontra] at hin
          exact hmap hin
        simpa using hne
      rw [headerGet_applyInjected_not_mem k rest (headerSet hm kv.1 kv.2) hnotin,
        hk1, hv]
      exact headerGet_headerSet_self hm k v
    · have hnd2 : (rest.map Prod.fst).Nodup :=
        (List.nodup_cons.mp (by simpa using hnd)).2
      exact ih (headerSet hm kv.1 kv.2) hmem2 hnd2

/-- C2 (spec-modelled): for every configured injected header (k, v), every
outbound request either handler builds — the plain-HTTP forward leg and the
MITM upstream leg — carries the header k with exactly the value v,
overwriting any value the client supplied for k.  The key uniqueness
hypothesis reflects that `Server.InjectHeaders` is a Go map. -/
theorem injected_headers_applied (inj : List (String × String)) (k v : String)
    (hmem : (k, v) ∈ inj) (hnd : (inj.map Prod.fst).Nodup) :
    (∀ store env r st ob,
      (handleRequest inj store env r st).2.2 = some ob → headerGet ob k = some [v]) ∧
    (∀ store env st ob,
      (handleHTTPS inj store env st).2.2 = some ob → headerGet ob k = some [v]) := by
  have key : ∀ ch : HeaderMap, headerGet (buildOutbound inj ch) k = some [v] := by
    intro ch
    exact headerGet_applyInjected_mem k v inj (removeHopHeaders (copyHeaders ch)) hmem hnd
  constructor
  · intro store env r st ob hob
    cases hne : env.newReqErr with
    | some me => simp [handleRequest, hne] at hob
    | none =>
      cases ho : env.outcome with
      | fail m t =>
        simp [handleRequest, hne, ho] at hob
        subst hob
        exact key _
      | ok s b e =>
        simp [handleRequest, hne, ho] at hob
        subst hob
        exact key _
  · intro store env st ob hob
    by_cases hhost : env.connectHost == ""
    · simp [handleHTTPS, hhost] at hob
    · cases hpres : (provisionCert env.mintOracle st env.connectHost).2 with
      | mintFailed => simp [handleHTTPS, hhost, hpres] at hob
      | served c =>
        cases h1 : env.hijackSupported with
        | false => simp [handleHTTPS, hhost, hpres, h1] at hob
        | true =>
          cases h2 : env.hijackOk with
          | false => simp [handleHTTPS, hhost, hpres, h1, h2] at hob
          | true =>
            cases h3 : env.ackWriteOk with
            | false => simp [handleHTTPS, hhost, hpres, h1, h2, h3] at hob
            | true =>
              cases h4 : env.handshakeOk with
              | false => simp [handleHTTPS, hhost, hpres, h1, h2, h3, h4] at hob
              | true =>
                cases hir : env.innerReq with
                | none => simp [handleHTTPS, hhost, hpres, h1, h2, h3, h4, hir] at hob
                | some q =>
                  cases hne : env.newReqErr with
                  | some me =>
                    simp [handleHTTPS, hhost, hpres, h1, h2, h3, h4, hir, hne] at hob
                  | none =>
                    cases hup : env.upstream with
                    | fail m t =>
                      simp [handleHTTPS, hhost, hpres, h1, h2, h3, h4, hir, hne, hup] at hob
                      subst hob
                      exact key _
                    | ok s b e =>
                      cases h5 : env.respWriteOk with
                      | false =>
                        simp [handleHTTPS, hhost, hpres, h1, h2, h3, h4, hir, hne,
                          hup, h5] at hob
                        subst hob
                        exact key _
                      | true =>
                        simp [handleHTTPS, hhost, hpres, h1, h2, h3, h4, hir, hne,
                          hup, h5] at hob
                        subst hob
                        exact key _

/-- The injected-header configuration used in the witness. -/
def injW : List (String × String) := [("X-Added", "1")]

theorem injected_headers_applied_witness :
    headerGet
      (buildOutbound injW [("X-Added", ["2"]), ("Connection", ["keep-alive"])])
      "X-Added" = some ["1"] := by
  have h := injected_headers_applied injW "X-Added" "1" (by decide) (by decide)
  exact h.1 [[("X-Added", ["2"]), ("Connection", ["keep-alive"])]]
    fwdEnvOk sampleFwdReq initState _ rfl

/-! ## C4 and C5: leaf-cache provisioning -/

lemma lookupCert_append (c1 c2 : List (String × LeafCert)) (h : String) :
    lookupCert (c1 ++ c2) h =
      match lookupCert c1 h with
      | some c => some c
      | none => lookupCert c2 h := by
  induction c1 with
  | nil => simp [lookupCert]
  | cons kv rest ih =>
    cases hk : kv.1 == h with
    | true => simp [lookupCert, hk]
    | false => simp [lookupCert, hk, ih]

lemma lookupCert_some_mem (cache : List (String × LeafCert)) (h : String) (c : LeafCert) :
    lookupCert cache h = some c → (h, c) ∈ cache := by
  induction cache with
  | nil => intro hl; cases hl
  | cons kv rest ih =>
    intro hl
    cases hk : kv.1 == h with
    | true =>
      have e1 : kv.1 = h := by simpa using hk
      rw [lookupCert, hk] at hl
      simp at hl
      rw [← e1, ← hl]
      exact List.mem_cons_self _ _
    | false =>
      rw [lookupCert, hk] at hl
      simp only [Bool.false_eq_true, if_false] at hl
      exact List.mem_cons_of_mem _ (ih hl)

/-- Cache hit: provisioning returns the cached leaf and changes nothing. -/
lemma provisionCert_hit (oracle : Nat → Option Nat) (st : ProxyState) (host : String)
    (c : LeafCert) (hc : lookupCert st.certCache host = some c) :
    provisionCert oracle st host = (st, .served c) := by
  unfold provisionCert
  rw [hc]

/-- Cache miss with successful crypto: provisioning mints a leaf for the
port-stripped hostname, caches it under the full authority, and records the
mint. -/
lemma provisionCert_miss_ok (oracle : Nat → Option Nat) (st : ProxyState) (host : String)
    (s : Nat) (hc : lookupCert st.certCache host = none)
    (ho : oracle st.mintsFor.length = some s) :
    provisionCert oracle st host =
      ({ st with
          certCache := st.certCache ++
            [(host, { cn := stripPort host, dnsNames := [stripPort host], serial := s })],
          mintsFor := st.mintsFor ++ [host] },
       .served { cn := stripPort host, dnsNames := [stripPort host], serial := s }) := by
  unfold provisionCert
  rw [hc, ho]
  rfl

/-- Provisioning a different hostKey never changes what the cache holds for
this hostKey. -/
lemma provisionCert_cacheGet_ne (oracle : Nat → Option Nat) (st : ProxyState)
    (host h : String) (hne : host ≠ h) :
    lookupCert ((provisionCert oracle st host).1).certCache h =
      lookupCert st.certCache h := by
  unfold provisionCert
  cases lookupCert st.certCache host with
  | some c => rfl
  | none =>
    cases GenerateServerCert (stripPort host) (oracle st.mintsFor.length) with
    | none => rfl
    | some leaf =>
      show lookupCert (st.certCache ++ [(host, leaf)]) h = lookupCert st.certCache h
      rw [lookupCert_append]
      have hb : (host == h) = false := by simpa using hne
      cases lookupCert st.certCache h <;> simp [lookupCert, hb]

/-- Provisioning a different hostKey never changes this hostKey's mint
count. -/
lemma provisionCert_count_ne (oracle : Nat → Option Nat) (st : ProxyState)
    (host h : String) (hne : host ≠ h) :
    ((provisionCert oracle st host).1).mintsFor.count h = st.mintsFor.count h := by
  unfold provisionCert
  cases lookupCert st.certCache host with
  | some c => rfl
  | none =>
    cases GenerateServerCert (stripPort host) (oracle st.mintsFor.length) with
    | none =>
      show (st.mintsFor ++ [host]).count h = st.mintsFor.count h
      simp [List.count_append, List.count_singleton', hne]
    | some leaf =>
      show (st.mintsFor ++ [host]).count h = st.mintsFor.count h
      simp [List.count_append, List.count_singleton', hne]

/-- A whole-lifetime sequence of CONNECT provisionings: thread the state
through `provisionCert` and collect, per request, the hostKey and the
provisioning outcome. -/
def provisionTrace (oracle : Nat → Option Nat) :
    ProxyState → List String → ProxyState × List (String × ProvisionResult)
  | st, [] => (st, [])
  | st, host :: rest =>
    ((provisionTrace oracle (provisionCert oracle st host).1 rest).1,
     (host, (provisionCert oracle st host).2) ::
       (provisionTrace oracle (provisionCert oracle st host).1 rest).2)

/-- Once a leaf is cached for a hostKey, any further sequence of
provisionings never mints for that hostKey again and serves exactly the
cached leaf. -/
lemma provisionTrace_cached (oracle : Nat → Option Nat) (h : String) (c : LeafCert) :
    ∀ (hosts : List String) (st : ProxyState),
      lookupCert st.certCache h = some c →
      lookupCert ((provisionTrace oracle st hosts).1).certCache h = some c ∧
      ((provisionTrace oracle st hosts).1).mintsFor.count h = st.mintsFor.count h ∧
      (∀ c2, (h, ProvisionResult.served c2) ∈ (provisionTrace oracle st hosts).2 → c2 = c) := by
  intro hosts
  induction hosts with
  | nil =>
    intro st hc
    exact ⟨hc, rfl, by simp [provisionTrace]⟩
  | cons host rest ih =>
    intro st hc
    by_cases heq : host = h
    · subst heq
      have hstep := provisionCert_hit oracle st host c hc
      have hs1 : (provisionCert oracle st host).1 = st := by rw [hstep]
      have hs2 : (provisionCert oracle st host).2 = .served c := by rw [hstep]
      have ihr := ih st hc
      refine ⟨?_, ?_, ?_⟩
      · show lookupCert ((provisionTrace oracle (provisionCert oracle st host).1 rest).1).certCache host = some c
        rw [hs1]
        exact ihr.1
      · show ((provisionTrace oracle (provisionCert oracle st host).1 rest).1).mintsFor.count host = st.mintsFor.count host
        rw [hs1]
        exact ihr.2.1
      · intro c2 hm
        simp only [provisionTrace, List.mem_cons] at hm
        rcases hm with hm | hm
        · have : ProvisionResult.served c2 = (provisionCert oracle st host).2 := by
            have := congrArg Prod.snd hm
            simpa using this
          rw [hs2] at this
          exact (ProvisionResult.served.injEq _ _ ▸ this.symm : c = c2).symm
        · rw [hs1] at hm
          exact ihr.2.2 c2 hm
    · have hc2 : lookupCert ((provisionCert oracle st host).1).certCache h = some c := by
        rw [provisionCert_cacheGet_ne oracle st host h heq]
        exact hc
      have ihr := ih ((provisionCert oracle st host).1) hc2
      refine ⟨ihr.1, ?_, ?_⟩
      · show ((provisionTrace oracle (provisionCert oracle st host).1 rest).1).mintsFor.count h = st.mintsFor.count h
        rw [ihr.2.1]
        exact provisionCert_count_ne oracle st host h heq
      · intro c2 hm
        simp only [provisionTrace, List.mem_cons] at hm
        rcases hm with hm | hm
        · exact absurd (congrArg Prod.fst hm).symm heq
        · exact ihr.2.2 c2 hm

/-- Starting from a state with no cached leaf for a hostKey, a sequence of
provisionings with always-succeeding crypto mints for it at most once and
serves a single, consistent leaf. -/
lemma provisionTrace_uncached (oracle : Nat → Option Nat)
    (hTot : ∀ n, (oracle n).isSome = true) (h : String) :
    ∀ (hosts : List String) (st : ProxyState),
      lookupCert st.certCache h = none →
      ((provisionTrace oracle st hosts).1).mintsFor.count h ≤ st.mintsFor.count h + 1 ∧
      (∀ c1 c2, (h, ProvisionResult.served c1) ∈ (provisionTrace oracle st hosts).2 →
        (h, ProvisionResult.served c2) ∈ (provisionTrace oracle st hosts).2 → c1 = c2) := by
  intro hosts
  induction hosts with
  | nil =>
    intro st hc
    exact ⟨Nat.le_succ _, by simp [provisionTrace]⟩
  | cons host rest ih =>
    intro st hc
    by_cases heq : host = h
    · subst heq
      have hs := hTot st.mintsFor.length
      cases ho : oracle st.mintsFor.length with
      | none => rw [ho] at hs; simp at hs
      | some s =>
        have hstep := provisionCert_miss_ok oracle st host s hc ho
        have hs1 : (provisionCert oracle st host).1 =
            { st with
              certCache := st.certCache ++
                [(host, { cn := stripPort host, dnsNames := [stripPort host], serial := s })],
              mintsFor := st.mintsFor ++ [host] } := by rw [hstep]
        have hs2 : (provisionCert oracle st host).2 =
            .served { cn := stripPort host, dnsNames := [stripPort host], serial := s } := by
          rw [hstep]
        have hcache2 : lookupCert ((provisionCert oracle st host).1).certCache host =
            some { cn := stripPort host, dnsNames := [stripPort host], serial := s } := by
          rw [hs1]
          show lookupCert (st.certCache ++ [_]) host = _
          rw [lookupCert_append, hc]
          simp [lookupCert]
        have hcached := provisionTrace_cached oracle host
          { cn := stripPort host, dnsNames := [stripPort host], serial := s }
          rest ((provisionCert oracle st host).1) hcache2
        constructor
        · show ((provisionTrace oracle (provisionCert oracle st host).1 rest).1).mintsFor.count host ≤ st.mintsFor.count host + 1
          rw [hcached.2.1, hs1]
          show (st.mintsFor ++ [host]).count host ≤ st.mintsFor.count host + 1
          simp [List.count_append]
        · intro c1 c2 hm1 hm2
          have hone : ∀ c0, (host, ProvisionResult.served c0) ∈
              (provisionTrace oracle st (host :: rest)).2 →
              c0 = { cn := stripPort host, dnsNames := [stripPort host], serial := s } := by
            intro c0 hm
            simp only [provisionTrace, List.mem_cons] at hm
            rcases hm with hm | hm
            · have hmm : ProvisionResult.served c0 = (provisionCert oracle st host).2 := by
                have := congrArg Prod.snd hm
                simpa using this
              rw [hs2] at hmm
              simpa using hmm
            · exact hcached.2.2 c0 hm
          rw [hone c1 hm1, hone c2 hm2]
    · have hc2 : lookupCert ((provisionCert oracle st host).1).certCache h = none := by
        rw [provisionCert_cacheGet_ne oracle st host h heq]
        exact hc
      have ihr := ih ((provisionCert oracle st host).1) hc2
      constructor
      · show ((provisionTrace oracle (provisionCert oracle st host).1 rest).1).mintsFor.count h ≤ st.mintsFor.count h + 1
        calc ((provisionTrace oracle (provisionCert oracle st host).1 rest).1).mintsFor.count h
            ≤ ((provisionCert oracle st host).1).mintsFor.count h + 1 := ihr.1
          _ = st.mintsFor.count h + 1 := by
              rw [provisionCert_count_ne oracle st host h heq]
      · intro c1 c2 hm1 hm2
        simp only [provisionTrace, List.mem_cons] at hm1 hm2
        rcases hm1 with hm1 | hm1
        · exact absurd (congrArg Prod.fst hm1).symm heq
        · rcases hm2 with hm2 | hm2
          · exact absurd (congrArg Prod.fst hm2).symm heq
          · exact ihr.2 c1 c2 hm1 hm2

/-- A mint oracle whose first key generation fails and later ones succeed. -/
def flakyOracle : Nat → Option Nat := fun n => if n == 0 then none else some 0

/-- C4 counterexample: when the first mint for a hostKey fails (a
cryptographic error in `GenerateServerCert`), nothing is cached and a second
CONNECT for the same hostKey calls `GenerateServerCert` again — two mint
calls for one hostKey in one process lifetime, refuting the unconditional
"at most one leaf-mint call ever" claim. -/
theorem single_mint_counterexample :
    ((provisionTrace flakyOracle initState ["a:1", "a:1"]).1).mintsFor.count "a:1" = 2 ∧
    ((provisionTrace flakyOracle initState ["a:1", "a:1"]).2).map Prod.snd =
      [ProvisionResult.mintFailed,
       ProvisionResult.served { cn := "a", dnsNames := ["a"], serial := 0 }] := by
  exact ⟨by decide, by decide⟩

/-- C4 amended: because the whole lookup-mint-store sequence runs under the
server mutex, concurrent CONNECTs are serialized; for any serialized request
sequence in which every `GenerateServerCert` call succeeds, each hostKey is
minted at most once over the process lifetime and every request for that
hostKey is served the identical cached certificate.  When a mint fails,
nothing is cached and a later CONNECT for the same hostKey may mint again
(see the counterexample). -/
theorem single_mint_per_host_amended (oracle : Nat → Option Nat) (hosts : List String)
    (h : String) (hTot : ∀ n, (oracle n).isSome = true) :
    ((provisionTrace oracle initState hosts).1).mintsFor.count h ≤ 1 ∧
    (∀ c1 c2, (h, ProvisionResult.served c1) ∈ (provisionTrace oracle initState hosts).2 →
      (h, ProvisionResult.served c2) ∈ (provisionTrace oracle initState hosts).2 →
      c1 = c2) := by
  have base := provisionTrace_uncached oracle hTot h hosts initState rfl
  constructor
  · have h0 : initState.mintsFor.count h + 1 = 1 := by simp [initState]
    rw [h0] at base
    exact base.1
  · exact base.2

theorem single_mint_per_host_amended_witness :
    ((provisionTrace (fun _ => some 0) initState ["a:1", "a:1"]).1).mintsFor.count "a:1" ≤ 1 :=
  (single_mint_per_host_amended (fun _ => some 0) ["a:1", "a:1"] "a:1" (fun _ => rfl)).1

/-- The invariant relating cached leaves to their cache keys: every cached
leaf was minted for the port-stripped form of its key. -/
def CacheInv (st : ProxyState) : Prop :=
  ∀ kv ∈ st.certCache, kv.2.cn = stripPort kv.1 ∧ kv.2.dnsNames = [stripPort kv.1]

/-- Provisioning preserves the cache invariant. -/
lemma cacheInv_provisionCert (oracle : Nat → Option Nat) (st : ProxyState) (host : String)
    (hinv : CacheInv st) : CacheInv ((provisionCert oracle st host).1) := by
  cases hl : lookupCert st.certCache host with
  | some c =>
    rw [provisionCert_hit oracle st host c hl]
    exact hinv
  | none =>
    cases ho : oracle st.mintsFor.length with
    | none =>
      have hstep : provisionCert oracle st host =
          ({ st with mintsFor := st.mintsFor ++ [host] }, .mintFailed) := by
        unfold provisionCert
        rw [hl, ho]
        rfl
      rw [hstep]
      exact hinv
    | some s =>
      rw [provisionCert_miss_ok oracle st host s hl ho]
      intro kv hkv
      rcases List.mem_append.mp hkv with hkv | hkv
      · exact hinv kv hkv
      · simp at hkv
        rw [hkv]
        exact ⟨rfl, rfl⟩

/-- C5: whenever a CONNECT provisioning serves a leaf (and therefore the TLS
handshake, if it succeeds, presents that leaf), the leaf's subject CN is the
CONNECT authority with any port stripped and its DNS SANs are exactly that
port-stripped name, while the cache keeps the leaf under the unmodified
authority string (port included). -/
theorem leaf_cert_cn_san_cache_key (oracle : Nat → Option Nat) (st : ProxyState)
    (host : String) (cert : LeafCert) (hinv : CacheInv st)
    (hserved : (provisionCert oracle st host).2 = .served cert) :
    cert.cn = stripPort host ∧ cert.dnsNames = [stripPort host] ∧
    lookupCert ((provisionCert oracle st host).1).certCache host = some cert := by
  cases hl : lookupCert st.certCache host with
  | some c =>
    have hstep := provisionCert_hit oracle st host c hl
    rw [hstep] at hserved
    have hcc : c = cert := by simpa using hserved
    subst hcc
    have hmem := lookupCert_some_mem st.certCache host c hl
    have hcn := hinv (host, c) hmem
    refine ⟨hcn.1, hcn.2, ?_⟩
    rw [hstep]
    exact hl
  | none =>
    cases ho : oracle st.mintsFor.length with
    | none =>
      have : provisionCert oracle st host =
          ({ st with mintsFor := st.mintsFor ++ [host] }, .mintFailed) := by
        unfold provisionCert
        rw [hl, ho]
        rfl
      rw [this] at hserved
      cases hserved
    | some s =>
      have hstep := provisionCert_miss_ok oracle st host s hl ho
      rw [hstep] at hserved
      have hcc : ({ cn := stripPort host, dnsNames := [stripPort host], serial := s } :
          LeafCert) = cert := by simpa using hserved
      subst hcc
      refine ⟨rfl, rfl, ?_⟩
      rw [hstep]
      show lookupCert (st.certCache ++ [_]) host = _
      rw [lookupCert_append, hl]
      simp [lookupCert]

theorem leaf_cert_cn_san_cache_key_witness :
    ({ cn := "a", dnsNames := ["a"], serial := 7 } : LeafCert).cn = stripPort "a:1" ∧
    ({ cn := "a", dnsNames := ["a"], serial := 7 } : LeafCert).dnsNames = [stripPort "a:1"] ∧
    lookupCert ((provisionCert (fun _ => some 7) initState "a:1").1).certCache "a:1" =
      some { cn := "a", dnsNames := ["a"], serial := 7 } :=
  leaf_cert_cn_san_cache_key (fun _ => some 7) initState "a:1"
    { cn := "a", dnsNames := ["a"], serial := 7 }
    (fun kv hkv => absurd hkv (List.not_mem_nil kv)) (by decide)

/-! ## C9: HAR export -/

lemma exportHAR_foldl (store : Store) :
    ∀ (recs : List Request) (acc : List HAREntry),
      recs.foldl (fun a r => if r.error == "" then a ++ [harEntryOf store r] else a) acc =
        acc ++ (recs.filter (fun r => r.error == "")).map (harEntryOf store) := by
  intro recs
  induction recs with
  | nil => intro acc; simp
  | cons r rest ih =>
    intro acc
    cases hr : r.error == "" with
    | true =>
      rw [List.foldl_cons, if_pos hr, ih]
      simp [List.filter_cons, hr]
    | false =>
      have hr2 : ¬((r.error == "") = true) := by simp [hr]
      rw [List.foldl_cons, if_neg hr2, ih]
      simp [List.filter_cons, hr]

/-- The record used in the HAR-time counterexample: a successful transaction
whose duration is 1.5 ms (1 500 000 ns). -/
def cexHarRec : Request :=
  { id := 1, tsNs := 0, method := "GET", url := "http://h/x", host := "h",
    path := "/x", statusCode := 200, durationNs := 1500000, reqSize := 0,
    respSize := 7, headersLoc := none, error := "" }

/-- C9 counterexample: `ExportHAR` computes `time` as
`float64(req.Duration.Milliseconds())`, which truncates to whole
milliseconds.  For a 1.5 ms duration the exported `time` is 1, not the 1.5
that "t.duration expressed in milliseconds" denotes. -/
theorem har_time_truncation_counterexample :
    ((exportHAREntries [] [cexHarRec]).map (fun e => e.time) = [(1 : ℚ)]) ∧
    cexHarRec.durationNs = 1500000 ∧
    ((1500000 : ℚ) / 1000000 = 3 / 2) ∧
    ((1 : ℚ) ≠ 3 / 2) := by
  refine ⟨?_, rfl, by norm_num, by norm_num⟩
  simp [exportHAREntries, cexHarRec, harEntryOf, millisOf]

/-- C9 amended: the HAR export contains exactly one entry, in log order, for
every record with empty error — records with non-empty error produce no
entry — and for each exported record the entry's `time` is the record's
duration truncated to whole milliseconds (not the exact duration in
milliseconds, see the counterexample), while both the response `bodySize`
and the response content size equal the record's `respSize`. -/
theorem har_export_amended (store : Store) :
    (∀ recs, exportHAREntries store recs =
      (recs.filter (fun r => r.error == "")).map (harEntryOf store)) ∧
    (∀ rec, (harEntryOf store rec).time = ((millisOf rec.durationNs : Nat) : ℚ) ∧
      (harEntryOf store rec).respBodySize = rec.respSize ∧
      (harEntryOf store rec).respContentSize = rec.respSize) := by
  constructor
  · intro recs
    have h := exportHAR_foldl store recs []
    simpa [exportHAREntries] using h
  · intro rec
    exact ⟨rfl, rfl, rfl⟩

end Mozzy
